import Mathlib

set_option maxRecDepth 10000
set_option maxHeartbeats 1000000

/-!
Shallow embedding of the progress-reporting pipeline of the
`electron-build-tools` VS Code extension: the line-oriented progress
parsers of the build and sync command handlers, the environment override
for build operations, the local socket endpoint naming, and the
event/settlement behaviour of the two build-operation variants (direct
child-process pipe, and task execution relayed through a local socket).
Strings are modelled as lists of characters.
-/

/-- Characters of a string literal. -/
def strL (s : String) : List Char := s.data

/-- ASCII whitespace characters removed by the JavaScript `trim` and
skipped by `parseInt`. -/
def isWsChar (c : Char) : Bool :=
  c == ' ' || c == '\t' || c == '\n' || c == '\r' || c == '\x0b' || c == '\x0c'

/-- Model of JavaScript `String.prototype.trim`: drop whitespace from
both ends. -/
def jsTrim (s : List Char) : List Char :=
  ((s.dropWhile isWsChar).reverse.dropWhile isWsChar).reverse

/-- If `p` is a leading fragment of `s`, return the rest of `s`. -/
def stripHead : List Char → List Char → Option (List Char)
  | [], s => some s
  | _ :: _, [] => none
  | p :: ps, c :: cs => if p = c then stripHead ps cs else none

/-- Suffix of `s` after the first occurrence of `p`, if `p` occurs in `s`. -/
def dropAfterFirst (p : List Char) : List Char → Option (List Char)
  | [] => stripHead p []
  | c :: cs =>
    match stripHead p (c :: cs) with
    | some r => some r
    | none => dropAfterFirst p cs

/-- Model of a JavaScript regular-expression `test` for patterns of the
shape `A.*B.*C`: the literal fragments must occur in `s` in order.
Taking the suffix after the first occurrence of each fragment is complete
for matchability. -/
def seqMatch (s : List Char) : List (List Char) → Bool
  | [] => true
  | p :: ps =>
    match dropAfterFirst p s with
    | some r => seqMatch r ps
    | none => false

/-- Decimal digit value of a character, if any. -/
def decDigitVal (c : Char) : Option Nat :=
  if c.isDigit then some (c.toNat - 48) else none

/-- Hexadecimal digit value of a character, if any. -/
def hexDigitVal (c : Char) : Option Nat :=
  if c.isDigit then some (c.toNat - 48)
  else if 'a' ≤ c ∧ c ≤ 'f' then some (c.toNat - 87)
  else if 'A' ≤ c ∧ c ≤ 'F' then some (c.toNat - 55)
  else none

/-- Accumulate the longest leading run of digits. -/
def digitsAcc (dig : Char → Option Nat) (base : Nat) : Nat → List Char → Nat
  | acc, [] => acc
  | acc, c :: cs =>
    match dig c with
    | some d => digitsAcc dig base (acc * base + d) cs
    | none => acc

/-- Value of the longest leading run of digits; `none` when the first
character is not a digit (JavaScript `parseInt` yields `NaN` there). -/
def digitsNum (dig : Char → Option Nat) (base : Nat) : List Char → Option Nat
  | [] => none
  | c :: cs =>
    match dig c with
    | some d => some (digitsAcc dig base d cs)
    | none => none

/-- Magnitude part of JavaScript `parseInt` with no radix argument:
a `0x`/`0X` head selects hexadecimal, otherwise decimal. -/
def parseMag : List Char → Option Nat
  | '0' :: c :: r =>
    if c = 'x' ∨ c = 'X' then digitsNum hexDigitVal 16 r
    else digitsNum decDigitVal 10 ('0' :: c :: r)
  | s => digitsNum decDigitVal 10 s

/-- Model of JavaScript `parseInt(s)`: skip whitespace, optional sign,
then the longest leading digit run; `none` models `NaN`. -/
def parseIntJS (s : List Char) : Option Int :=
  match s.dropWhile isWsChar with
  | '-' :: r => (parseMag r).map (fun n => -(n : Int))
  | '+' :: r => (parseMag r).map (fun n => (n : Int))
  | r => (parseMag r).map (fun n => (n : Int))

/-- Model of `parseInt(line.split("%")[0].trim())` from the build line
handlers: parse the text before the first percent sign (the whole line
when no percent sign occurs). -/
def parseLinePercent (line : List Char) : Option Int :=
  parseIntJS (jsTrim (line.takeWhile (fun c => !(c == '%'))))

/-- Model of `/Regenerating ninja files/.test(line)` (case-sensitive). -/
def regenMatch (line : List Char) : Bool :=
  seqMatch line [strL "Regenerating ninja files"]

/-- Model of `/Running.*ninja/.test(line)`. -/
def runningNinja (line : List Char) : Bool :=
  seqMatch line [strL "Running", strL "ninja"]

/-- Goma test of the direct-pipe build handler: `/goma/.test(line)`. -/
def gomaTest000 (line : List Char) : Bool := seqMatch line [strL "goma"]

/-- Goma test of the socket-relay build handler: `/Running.*goma/.test(line)`. -/
def gomaTest001 (line : List Char) : Bool := seqMatch line [strL "Running", strL "goma"]

/-- One `progress.report` call: a message and an optional increment. -/
structure Report where
  message : String
  increment : Option Int
  deriving DecidableEq, Repr

/-- The `rl.on("line", ...)` rule chain of the build handlers, over the
baseline `lastBuildProgress`; `gomaTest` is the goma regex, the only
difference between the direct-pipe and socket-relay variants. -/
def buildLineStepG (gomaTest : List Char → Bool) (lastBuildProgress : Int)
    (line : List Char) : Int × Option Report :=
  if regenMatch line then
    (lastBuildProgress, some (Report.mk "Regenerating Ninja Files" (some 0)))
  else
    match parseLinePercent line with
    | some buildProgress =>
      if lastBuildProgress < buildProgress then
        (buildProgress,
          some (Report.mk "Compiling" (some (buildProgress - lastBuildProgress))))
      else
        (lastBuildProgress, none)
    | none =>
      if gomaTest line then (lastBuildProgress, some (Report.mk "Starting Goma" none))
      else if runningNinja line then (lastBuildProgress, some (Report.mk "Starting" none))
      else (lastBuildProgress, none)

/-- Feed a sequence of lines through the build rule chain, collecting
the emitted reports and the final baseline. -/
def runBuildG (gomaTest : List Char → Bool) (lastBuildProgress : Int) :
    List (List Char) → Int × List Report
  | [] => (lastBuildProgress, [])
  | line :: rest =>
    ((runBuildG gomaTest (buildLineStepG gomaTest lastBuildProgress line).1 rest).1,
      (buildLineStepG gomaTest lastBuildProgress line).2.toList
        ++ (runBuildG gomaTest (buildLineStepG gomaTest lastBuildProgress line).1 rest).2)

/-- Increments of the `PercentAdvanced` ("Compiling") events in a report list. -/
def compIncs (evs : List Report) : List Int :=
  evs.filterMap (fun r => if r.message = "Compiling" then r.increment else none)

/-- Model of `/running.*apply_all_patches\.py/.test(line)`. -/
def runApplyPatches (line : List Char) : Bool :=
  seqMatch line [strL "running", strL "apply_all_patches.py"]

/-- Model of `/Hook.*apply_all_patches\.py.*took/.test(line)`. -/
def hookApplyPatches (line : List Char) : Bool :=
  seqMatch line [strL "Hook", strL "apply_all_patches.py", strL "took"]

/-- The `rl.on("line", ...)` rule chain of the sync handler, over the
one-shot `initialProgress` flag. -/
def syncLineStep (initialProgress : Bool) (line : List Char) : Bool × Option Report :=
  if runApplyPatches line then (initialProgress, some (Report.mk "Applying Patches" none))
  else if hookApplyPatches line then (initialProgress, some (Report.mk "Finishing Up" none))
  else if initialProgress = false then (true, some (Report.mk "Dependencies" none))
  else (initialProgress, none)

/-- Feed a sequence of lines through the sync rule chain. -/
def runSync (initialProgress : Bool) : List (List Char) → Bool × List Report
  | [] => (initialProgress, [])
  | line :: rest =>
    ((runSync (syncLineStep initialProgress line).1 rest).1,
      (syncLineStep initialProgress line).2.toList
        ++ (runSync (syncLineStep initialProgress line).1 rest).2)

/-- The NINJA_STATUS value set by both build handlers. -/
def ninjaStatusValue : String := "%p %f/%t "

/-- Model of `{ ...process.env, NINJA_STATUS: "%p %f/%t " }`: object
spread where the later key overrides. -/
def buildEnv (env : String → Option String) : String → Option String :=
  fun key => if key = "NINJA_STATUS" then some ninjaStatusValue else env key

/-- The Windows named-pipe head `\\.\pipe\` from `generateSocketName`. -/
def pipeNameBase : List Char := strL "\\\\.\\pipe\\"

/-- Model of Node `path.join` for one directory and one separator-free
component. -/
def pathJoin2 (a b : List Char) : List Char :=
  if a = [] then b
  else if a.getLast? = some '/' then a ++ b
  else a ++ '/' :: b

/-- Model of `generateSocketName` from src/utils.ts, with the `uuidv4()`
call modelled as the supplied `token`. -/
def generateSocketName (isWin32 : Bool) (tmpdir token : List Char) : List Char :=
  if isWin32 then pipeNameBase ++ token
  else pathJoin2 tmpdir (strL "socket-" ++ token)

/-- Terminal classification of a settlement, following the spec's
lifecycle states since the promise resolution in the code carries no
value. -/
inductive Outcome where
  | succeeded
  | failed (code : Int)
  | errored
  | canceled
  | transportError
  | taskEnded
  deriving DecidableEq, Repr

/-- A message surfaced via `vscode.window.showErrorMessage`, keyed by its
content: `errorOccur m` models "'<op>' had an error occur: <m>" and
`exitFail c` models "'<op>' failed with exit code <c>". -/
inductive Surfaced where
  | errorOccur (message : String)
  | exitFail (code : Int)
  deriving DecidableEq, Repr

/-- Signals observable by the direct-pipe build handler: the child
process `error` event, the `exit` event (possibly with a null code), and
the cancellation token firing. -/
inductive DirectSignal where
  | procError (message : String)
  | procExit (code : Option Int)
  | cancel
  deriving DecidableEq, Repr

/-- State of the direct-pipe build handler: the `killed` flag, the
one-shot promise value, the surfaced messages, and the number of
`killThemAll` invocations. -/
structure DirectState where
  killed : Bool
  settled : Option Outcome
  messages : List Surfaced
  killCount : Nat
  deriving DecidableEq, Repr

/-- Initial direct-pipe handler state. -/
def directInit : DirectState := DirectState.mk false none [] 0

/-- Terminal classification of a process exit, per the spec: exit after
cancellation is `canceled`, exit code zero (or null) is `succeeded`,
a nonzero code is `failed`. -/
def classifyExit (killed : Bool) (code : Option Int) : Outcome :=
  if killed then Outcome.canceled
  else
    match code with
    | some c => if c = 0 then Outcome.succeeded else Outcome.failed c
    | none => Outcome.succeeded

/-- Settle the promise of the direct-pipe handler: `resolve` is a no-op
once the promise already has a value. -/
def settleD (s : DirectState) (o : Outcome) : DirectState :=
  match s.settled with
  | some _ => s
  | none => { s with settled := some o }

/-- One event-handler activation of the direct-pipe build handler:
`error` surfaces a message and resolves; `exit` surfaces a failure
message only when the code is nonzero and `killed` is unset, then
resolves; cancellation sets `killed`, runs `killThemAll`, and resolves. -/
def directStep (s : DirectState) : DirectSignal → DirectState
  | DirectSignal.procError m =>
    settleD { s with messages := s.messages ++ [Surfaced.errorOccur m] } Outcome.errored
  | DirectSignal.procExit code =>
    match code with
    | some c =>
      if c ≠ 0 ∧ s.killed = false then
        settleD { s with messages := s.messages ++ [Surfaced.exitFail c] }
          (classifyExit s.killed (some c))
      else settleD s (classifyExit s.killed (some c))
    | none => settleD s (classifyExit s.killed none)
  | DirectSignal.cancel =>
    settleD { s with killed := true, killCount := s.killCount + 1 } Outcome.canceled

/-- Run the direct-pipe handler from its initial state. -/
def directRun (signals : List DirectSignal) : DirectState :=
  signals.foldl directStep directInit

/-- Signals observable by the socket-relay build handler: a socket
server `error`, `onDidEndTask`, `onDidEndTaskProcess` with its exit
code, and the cancellation token firing. -/
inductive SocketSignal where
  | socketError
  | endTask
  | endTaskProcess (code : Option Int)
  | cancel
  deriving DecidableEq, Repr

/-- State of the socket-relay build handler: the one-shot promise value,
the surfaced messages, and the number of `taskExecution.terminate()`
invocations. -/
structure SocketState where
  settled : Option Outcome
  messages : List Surfaced
  terminateCount : Nat
  deriving DecidableEq, Repr

/-- Initial socket-relay handler state. -/
def socketInit : SocketState := SocketState.mk none [] 0

/-- Settle the promise of the socket-relay handler; the first settlement
also fires the `.finally(() => taskExecution.terminate())` hook, counted
here. -/
def settleS (s : SocketState) (o : Outcome) : SocketState :=
  match s.settled with
  | some _ => s
  | none => { s with settled := some o, terminateCount := s.terminateCount + 1 }

/-- One event-handler activation of the socket-relay build handler:
a socket error rejects; `onDidEndTask` resolves; `onDidEndTaskProcess`
surfaces a failure message whenever the exit code is truthy and nonzero
(it never resolves); cancellation resolves and additionally calls
`taskExecution.terminate()` itself. -/
def socketStep (s : SocketState) : SocketSignal → SocketState
  | SocketSignal.socketError => settleS s Outcome.transportError
  | SocketSignal.endTask => settleS s Outcome.taskEnded
  | SocketSignal.endTaskProcess code =>
    match code with
    | some c =>
      if c ≠ 0 then { s with messages := s.messages ++ [Surfaced.exitFail c] } else s
    | none => s
  | SocketSignal.cancel =>
    { settleS s Outcome.canceled with
        terminateCount := (settleS s Outcome.canceled).terminateCount + 1 }

/-- Run the socket-relay handler from its initial state. -/
def socketRun (signals : List SocketSignal) : SocketState :=
  signals.foldl socketStep socketInit

theorem settleD_killed (s : DirectState) (o : Outcome) : (settleD s o).killed = s.killed := by
  cases hs : s.settled <;> simp [settleD, hs]

theorem settleD_messages (s : DirectState) (o : Outcome) :
    (settleD s o).messages = s.messages := by
  cases hs : s.settled <;> simp [settleD, hs]

theorem settleD_of_some (s : DirectState) (o o' : Outcome) (h : s.settled = some o') :
    (settleD s o).settled = some o' := by
  simp [settleD, h]

theorem settleD_of_none (s : DirectState) (o : Outcome) (h : s.settled = none) :
    (settleD s o).settled = some o := by
  simp [settleD, h]

theorem directStep_killed_mono (s : DirectState) (g : DirectSignal) (h : s.killed = true) :
    (directStep s g).killed = true := by
  cases g with
  | procError m => simp [directStep, settleD_killed, h]
  | procExit code =>
    cases code with
    | some c => simp [directStep, settleD_killed, h]
    | none => simp [directStep, settleD_killed, h]
  | cancel => simp [directStep, settleD_killed]

theorem foldl_directStep_killed (signals : List DirectSignal) :
    ∀ s : DirectState, s.killed = true → (signals.foldl directStep s).killed = true := by
  induction signals with
  | nil => intro s h; simpa using h
  | cons g rest ih => intro s h; exact ih _ (directStep_killed_mono s g h)

theorem directStep_settled_mono (s : DirectState) (g : DirectSignal) (o : Outcome)
    (h : s.settled = some o) : (directStep s g).settled = some o := by
  cases g with
  | procError m => exact settleD_of_some _ _ o (by simpa using h)
  | procExit code =>
    cases code with
    | some c =>
      by_cases hc : c ≠ 0 ∧ s.killed = false
      · simp only [directStep, if_pos hc]
        exact settleD_of_some _ _ o (by simpa using h)
      · simp only [directStep, if_neg hc]
        exact settleD_of_some _ _ o h
    | none => exact settleD_of_some _ _ o h
  | cancel => exact settleD_of_some _ _ o (by simpa using h)

theorem foldl_directStep_settled (signals : List DirectSignal) :
    ∀ (s : DirectState) (o : Outcome), s.settled = some o →
      (signals.foldl directStep s).settled = some o := by
  induction signals with
  | nil => intro s o h; simpa using h
  | cons g rest ih => intro s o h; exact ih _ o (directStep_settled_mono s g o h)

theorem directStep_no_exitFail (s : DirectState) (g : DirectSignal) (c : Int)
    (hk : s.killed = true) (h : Surfaced.exitFail c ∉ s.messages) :
    Surfaced.exitFail c ∉ (directStep s g).messages := by
  cases g with
  | procError m =>
    simp only [directStep, settleD_messages]
    simp only [List.mem_append, List.mem_singleton]
    rintro (hm | hm)
    · exact h hm
    · exact Surfaced.noConfusion hm
  | procExit code =>
    cases code with
    | some c' =>
      have hc : ¬(c' ≠ 0 ∧ s.killed = false) := by simp [hk]
      simp only [directStep, if_neg hc, settleD_messages]
      exact h
    | none => simpa [directStep, settleD_messages] using h
  | cancel => simpa [directStep, settleD_messages] using h

theorem foldl_directStep_no_exitFail (signals : List DirectSignal) :
    ∀ (s : DirectState) (c : Int), s.killed = true → Surfaced.exitFail c ∉ s.messages →
      Surfaced.exitFail c ∉ (signals.foldl directStep s).messages := by
  induction signals with
  | nil => intro s c _ h; simpa using h
  | cons g rest ih =>
    intro s c hk h
    exact ih _ c (directStep_killed_mono s g hk) (directStep_no_exitFail s g c hk h)

theorem settleS_of_some (s : SocketState) (o o' : Outcome) (h : s.settled = some o') :
    (settleS s o).settled = some o' := by
  simp [settleS, h]

theorem socketStep_settled_mono (s : SocketState) (g : SocketSignal) (o : Outcome)
    (h : s.settled = some o) : (socketStep s g).settled = some o := by
  cases g with
  | socketError => exact settleS_of_some _ _ o h
  | endTask => exact settleS_of_some _ _ o h
  | endTaskProcess code =>
    cases code with
    | some c =>
      by_cases hc : c ≠ 0
      · simpa [socketStep, hc] using h
      · simpa [socketStep, hc] using h
    | none => simpa [socketStep] using h
  | cancel =>
    simp only [socketStep]
    simpa using settleS_of_some s Outcome.canceled o h

theorem foldl_socketStep_settled (signals : List SocketSignal) :
    ∀ (s : SocketState) (o : Outcome), s.settled = some o →
      (signals.foldl socketStep s).settled = some o := by
  induction signals with
  | nil => intro s o h; simpa using h
  | cons g rest ih => intro s o h; exact ih _ o (socketStep_settled_mono s g o h)

theorem socketStep_endTaskProcess_messages (s : SocketState) (c : Int) (hc : c ≠ 0) :
    (socketStep s (SocketSignal.endTaskProcess (some c))).messages
      = s.messages ++ [Surfaced.exitFail c] := by
  simp [socketStep, hc]


theorem buildLineStepG_spec (g : List Char → Bool) (last : Int) (line : List Char) :
    last ≤ (buildLineStepG g last line).1
    ∧ (compIncs (buildLineStepG g last line).2.toList).sum
        = (buildLineStepG g last line).1 - last
    ∧ ∀ i ∈ compIncs (buildLineStepG g last line).2.toList, 0 < i := by
  by_cases hr : regenMatch line
  · simp [buildLineStepG, hr, compIncs]
  · cases hp : parseLinePercent line with
    | some v =>
      by_cases hv : last < v
      · refine ⟨?_, ?_, ?_⟩
        · simp [buildLineStepG, hr, hp, hv]; omega
        · simp [buildLineStepG, hr, hp, hv, compIncs]
        · simp only [buildLineStepG, hr, hp, hv]
          simp [compIncs]
          omega
      · simp [buildLineStepG, hr, hp, hv, compIncs]
    | none =>
      by_cases hg : g line
      · simp [buildLineStepG, hr, hp, hg, compIncs]
      · by_cases hn : runningNinja line
        · simp [buildLineStepG, hr, hp, hg, hn, compIncs]
        · simp [buildLineStepG, hr, hp, hg, hn, compIncs]

theorem runBuildG_spec (g : List Char → Bool) :
    ∀ (lines : List (List Char)) (last : Int),
      last ≤ (runBuildG g last lines).1
      ∧ (compIncs (runBuildG g last lines).2).sum = (runBuildG g last lines).1 - last
      ∧ ∀ i ∈ compIncs (runBuildG g last lines).2, 0 < i := by
  intro lines
  induction lines with
  | nil => intro last; simp [runBuildG, compIncs]
  | cons line rest ih =>
    intro last
    obtain ⟨h1, h2, h3⟩ := buildLineStepG_spec g last line
    obtain ⟨h4, h5, h6⟩ := ih (buildLineStepG g last line).1
    refine ⟨?_, ?_, ?_⟩
    · simpa [runBuildG] using le_trans h1 h4
    · simp only [runBuildG, compIncs, List.filterMap_append, List.sum_append]
      simp only [compIncs] at h2 h5
      omega
    · intro i hi
      simp only [runBuildG, compIncs, List.filterMap_append, List.mem_append] at hi
      rcases hi with hi | hi
      · exact h3 i (by simpa [compIncs] using hi)
      · exact h6 i (by simpa [compIncs] using hi)

/-- C1 counterexample: in the socket-relay build variant, a cancellation
followed by an observed nonzero exit code still surfaces the failure
message for that exit code (the `onDidEndTaskProcess` handler is not
guarded by any cancellation flag), even though the operation settles as
canceled. -/
theorem socket_cancel_then_exit_surfaces_failure :
    (socketRun [SocketSignal.cancel, SocketSignal.endTaskProcess (some 1)]).settled
        = some Outcome.canceled
    ∧ (socketRun [SocketSignal.cancel, SocketSignal.endTaskProcess (some 1)]).messages
        = [Surfaced.exitFail 1] := by decide

/-- C1 (amended): in the direct-pipe build variant a cancellation
observed before a subsequent nonzero process exit settles the operation
as canceled and no failure message is surfaced for that exit code; in
the socket-relay variant the operation also settles as canceled, but the
failure message for the nonzero exit code is surfaced anyway. -/
theorem cancel_suppresses_failure_direct_not_socket :
    (∀ (mid : List DirectSignal) (c : Int), c ≠ 0 →
      (directRun (DirectSignal.cancel :: mid ++ [DirectSignal.procExit (some c)])).settled
          = some Outcome.canceled
      ∧ Surfaced.exitFail c ∉
          (directRun (DirectSignal.cancel :: mid ++ [DirectSignal.procExit (some c)])).messages)
    ∧ (∀ (mid : List SocketSignal) (c : Int), c ≠ 0 →
      (socketRun (SocketSignal.cancel :: mid ++ [SocketSignal.endTaskProcess (some c)])).settled
          = some Outcome.canceled
      ∧ Surfaced.exitFail c ∈
          (socketRun (SocketSignal.cancel :: mid
            ++ [SocketSignal.endTaskProcess (some c)])).messages) := by
  constructor
  · intro mid c _
    have hrun : directRun (DirectSignal.cancel :: mid ++ [DirectSignal.procExit (some c)])
        = (mid ++ [DirectSignal.procExit (some c)]).foldl directStep
            (directStep directInit DirectSignal.cancel) := rfl
    have hs1 : directStep directInit DirectSignal.cancel
        = DirectState.mk true (some Outcome.canceled) [] 1 := rfl
    constructor
    · rw [hrun, hs1]
      exact foldl_directStep_settled _ _ Outcome.canceled rfl
    · rw [hrun, hs1]
      exact foldl_directStep_no_exitFail _ _ c rfl (by simp)
  · intro mid c hc
    have hrun : socketRun (SocketSignal.cancel :: mid ++ [SocketSignal.endTaskProcess (some c)])
        = socketStep ((mid.foldl socketStep (socketStep socketInit SocketSignal.cancel)))
            (SocketSignal.endTaskProcess (some c)) := by
      show (mid ++ [SocketSignal.endTaskProcess (some c)]).foldl socketStep
            (socketStep socketInit SocketSignal.cancel) = _
      rw [List.foldl_append]
      rfl
    have hs1 : socketStep socketInit SocketSignal.cancel
        = SocketState.mk (some Outcome.canceled) [] 2 := rfl
    constructor
    · rw [hrun]
      apply socketStep_settled_mono
      rw [hs1]
      exact foldl_socketStep_settled _ _ Outcome.canceled rfl
    · rw [hrun, socketStep_endTaskProcess_messages _ c hc]
      simp

/-- C1 witness: concrete instance of the amended theorem at a single
cancellation followed by exit code 1, for both variants. -/
theorem cancel_suppresses_failure_direct_not_socket_witness :
    ((directRun [DirectSignal.cancel, DirectSignal.procExit (some 1)]).settled
        = some Outcome.canceled
      ∧ Surfaced.exitFail 1 ∉
          (directRun [DirectSignal.cancel, DirectSignal.procExit (some 1)]).messages)
    ∧ ((socketRun [SocketSignal.cancel, SocketSignal.endTaskProcess (some 1)]).settled
        = some Outcome.canceled
      ∧ Surfaced.exitFail 1 ∈
          (socketRun [SocketSignal.cancel, SocketSignal.endTaskProcess (some 1)]).messages) :=
  ⟨cancel_suppresses_failure_direct_not_socket.1 [] 1 (by decide),
   cancel_suppresses_failure_direct_not_socket.2 [] 1 (by decide)⟩

/-- C2 counterexample: on the socket-relay cancellation path the cleanup
`taskExecution.terminate()` runs twice (once in the cancellation handler
and once in the promise's `finally`), not exactly once, even though the
operation settles exactly once as canceled. -/
theorem socket_cancel_double_terminate :
    (socketRun [SocketSignal.cancel]).terminateCount = 2
    ∧ (socketRun [SocketSignal.cancel]).settled = some Outcome.canceled
    ∧ (socketRun [SocketSignal.cancel]).terminateCount ≠ 1 := by decide

/-- C2 (amended): in both variants the first settling signal fixes the
terminal state, which no later signal changes; but later-arriving
signals are not discarded without side effects — in the socket-relay
variant an exit signal observed after settlement still surfaces a
failure message, and the cancellation path invokes terminate twice. -/
theorem settlement_first_wins_stable :
    (∀ (signals more : List DirectSignal) (o : Outcome),
        (directRun signals).settled = some o → (directRun (signals ++ more)).settled = some o)
    ∧ (∀ (signals more : List SocketSignal) (o : Outcome),
        (socketRun signals).settled = some o → (socketRun (signals ++ more)).settled = some o)
    ∧ (socketRun [SocketSignal.endTask, SocketSignal.endTaskProcess (some 1)]).messages
        = [Surfaced.exitFail 1]
    ∧ (socketRun [SocketSignal.endTask, SocketSignal.endTaskProcess (some 1)]).settled
        = some Outcome.taskEnded
    ∧ (socketRun [SocketSignal.cancel]).terminateCount = 2 := by
  refine ⟨?_, ?_, by decide, by decide, by decide⟩
  · intro signals more o h
    have : directRun (signals ++ more) = more.foldl directStep (directRun signals) := by
      simp [directRun, List.foldl_append]
    rw [this]
    exact foldl_directStep_settled more _ o h
  · intro signals more o h
    have : socketRun (signals ++ more) = more.foldl socketStep (socketRun signals) := by
      simp [socketRun, List.foldl_append]
    rw [this]
    exact foldl_socketStep_settled more _ o h

/-- C2 witness: a direct-variant settlement by cancellation is unchanged
by a subsequent exit signal. -/
theorem settlement_first_wins_stable_witness :
    (directRun ([DirectSignal.cancel] ++ [DirectSignal.procExit (some 0)])).settled
      = some Outcome.canceled :=
  settlement_first_wins_stable.1 [DirectSignal.cancel] [DirectSignal.procExit (some 0)]
    Outcome.canceled (by decide)

/-- C3: for any goma rule, baseline and line sequence, the build parser
baseline never decreases, the emitted Compiling increments sum to the
final baseline minus the initial one, every increment is strictly
positive; and the concrete three-line regression scenario emits exactly
the two events with increments 50 and 20, in both build variants. -/
theorem build_percent_telescoping :
    (∀ (g : List Char → Bool) (last : Int) (lines : List (List Char)),
        last ≤ (runBuildG g last lines).1
        ∧ (compIncs (runBuildG g last lines).2).sum = (runBuildG g last lines).1 - last
        ∧ ∀ i ∈ compIncs (runBuildG g last lines).2, 0 < i)
    ∧ runBuildG gomaTest000 0 [strL "50% 5/10", strL "30% 3/10", strL "70% 7/10"]
        = (70, [Report.mk "Compiling" (some 50), Report.mk "Compiling" (some 20)])
    ∧ runBuildG gomaTest001 0 [strL "50% 5/10", strL "30% 3/10", strL "70% 7/10"]
        = (70, [Report.mk "Compiling" (some 50), Report.mk "Compiling" (some 20)]) := by
  refine ⟨?_, by decide, by decide⟩
  intro g last lines
  exact runBuildG_spec g lines last

/-- C3 witness: the positivity part applied to a concrete run. -/
theorem build_percent_telescoping_witness : (0 : Int) < 50 :=
  (build_percent_telescoping.1 gomaTest000 0 [strL "50% 5/10"]).2.2 50 (by decide)

/-- C4 counterexample: a line with no percent sign at all whose leading
characters parse as an integer above the baseline still emits a
Compiling (PercentAdvanced) event, because the code takes
`line.split("%")[0]`, which is the whole line when no percent sign
occurs, in both build variants. -/
theorem percent_sign_not_required :
    '%' ∉ strL "10 files"
    ∧ buildLineStepG gomaTest000 0 (strL "10 files")
        = (10, some (Report.mk "Compiling" (some 10)))
    ∧ buildLineStepG gomaTest001 0 (strL "10 files")
        = (10, some (Report.mk "Compiling" (some 10))) := by decide

/-- C4 (amended): a build line emits a Compiling (PercentAdvanced) event
exactly when it does not match the regeneration marker and the text
before the first percent sign — the whole line when no percent sign
occurs — parses as an integer strictly greater than the baseline; the
event then carries message "Compiling" and increment value minus
baseline, and the baseline is updated to the value. A percent sign is
not required. -/
theorem percent_rule_characterization :
    (∀ (g : List Char → Bool) (last : Int) (line : List Char) (v : Int),
        regenMatch line = false → parseLinePercent line = some v → last < v →
        buildLineStepG g last line = (v, some (Report.mk "Compiling" (some (v - last)))))
    ∧ (∀ (g : List Char → Bool) (last : Int) (line : List Char) (r : Report),
        (buildLineStepG g last line).2 = some r → r.message = "Compiling" →
        ∃ v, parseLinePercent line = some v ∧ last < v
          ∧ (buildLineStepG g last line).1 = v ∧ r.increment = some (v - last)) := by
  constructor
  · intro g last line v hr hp hv
    simp [buildLineStepG, hr, hp, hv]
  · intro g last line r hr hm
    by_cases hreg : regenMatch line
    · have hstep : (buildLineStepG g last line).2
          = some (Report.mk "Regenerating Ninja Files" (some 0)) := by
        simp [buildLineStepG, hreg]
      rw [hstep] at hr
      injection hr with h2
      subst h2
      exact absurd hm (by decide)
    · cases hp : parseLinePercent line with
      | some v =>
        by_cases hv : last < v
        · have hstep : buildLineStepG g last line
              = (v, some (Report.mk "Compiling" (some (v - last)))) := by
            simp [buildLineStepG, hreg, hp, hv]
          rw [hstep] at hr
          injection hr with h2
          subst h2
          exact ⟨v, by simp [hp], hv, by rw [hstep], rfl⟩
        · have hstep : (buildLineStepG g last line).2 = none := by
            simp [buildLineStepG, hreg, hp, hv]
          rw [hstep] at hr
          exact Option.noConfusion hr
      | none =>
        by_cases hg : g line
        · have hstep : (buildLineStepG g last line).2
              = some (Report.mk "Starting Goma" none) := by
            simp [buildLineStepG, hreg, hp, hg]
          rw [hstep] at hr
          injection hr with h2
          subst h2
          exact absurd hm (by decide)
        · by_cases hn : runningNinja line
          · have hstep : (buildLineStepG g last line).2
                = some (Report.mk "Starting" none) := by
              simp [buildLineStepG, hreg, hp, hg, hn]
            rw [hstep] at hr
            injection hr with h2
            subst h2
            exact absurd hm (by decide)
          · have hstep : (buildLineStepG g last line).2 = none := by
              simp [buildLineStepG, hreg, hp, hg, hn]
            rw [hstep] at hr
            exact Option.noConfusion hr

/-- C4 witness: the characterization applied to the percent-sign-free
line "10 files" at baseline 0. -/
theorem percent_rule_characterization_witness :
    buildLineStepG gomaTest000 0 (strL "10 files")
      = (10, some (Report.mk "Compiling" (some (10 - 0)))) :=
  percent_rule_characterization.1 gomaTest000 0 (strL "10 files") 10
    (by decide) (by decide) (by decide)

/-- C5 counterexample: the regeneration marker is matched
case-sensitively, so the fully capitalized variant named by the claim
emits no event at all, in both build variants. -/
theorem regen_marker_case_insensitive_fails :
    buildLineStepG gomaTest000 0 (strL "REGENERATING NINJA FILES") = (0, none)
    ∧ buildLineStepG gomaTest001 0 (strL "REGENERATING NINJA FILES") = (0, none) := by decide

/-- C5 (amended): a build line containing the case-sensitive marker
"Regenerating ninja files" emits PhaseChanged("Regenerating Ninja
Files") with increment 0, and this rule is evaluated before the percent
rule; the fully capitalized variant does not match, and a line that
both starts with a percent value and contains the marker still takes
the regeneration rule. -/
theorem regen_rule_first_case_sensitive :
    (∀ (g : List Char → Bool) (last : Int) (line : List Char), regenMatch line = true →
        buildLineStepG g last line
          = (last, some (Report.mk "Regenerating Ninja Files" (some 0))))
    ∧ regenMatch (strL "REGENERATING NINJA FILES") = false
    ∧ buildLineStepG gomaTest000 0 (strL "50% Regenerating ninja files")
        = (0, some (Report.mk "Regenerating Ninja Files" (some 0))) := by
  refine ⟨?_, by decide, by decide⟩
  intro g last line h
  simp [buildLineStepG, h]

/-- C5 witness: the regeneration rule applied to a concrete marker line
at a nonzero baseline. -/
theorem regen_rule_first_case_sensitive_witness :
    buildLineStepG gomaTest001 5 (strL "Regenerating ninja files...")
      = (5, some (Report.mk "Regenerating Ninja Files" (some 0))) :=
  regen_rule_first_case_sensitive.1 gomaTest001 5 (strL "Regenerating ninja files...")
    (by decide)

/-- C6: feeding the four scenario lines to the build rule chain of
either variant produces exactly PhaseChanged("Starting") followed by
Compiling events with increments 10, 15 and 5, with final baseline 30
and cumulative increment sum 30. -/
theorem build_scenario_events :
    runBuildG gomaTest000 0
        [strL "Running ninja...", strL "10% 5/50", strL "25% 12/50", strL "30% 15/50"]
      = (30, [Report.mk "Starting" none, Report.mk "Compiling" (some 10),
              Report.mk "Compiling" (some 15), Report.mk "Compiling" (some 5)])
    ∧ runBuildG gomaTest001 0
        [strL "Running ninja...", strL "10% 5/50", strL "25% 12/50", strL "30% 15/50"]
      = (30, [Report.mk "Starting" none, Report.mk "Compiling" (some 10),
              Report.mk "Compiling" (some 15), Report.mk "Compiling" (some 5)])
    ∧ (compIncs (runBuildG gomaTest000 0
        [strL "Running ninja...", strL "10% 5/50", strL "25% 12/50",
         strL "30% 15/50"]).2).sum = 30 := by decide

theorem runSync_quiet (tail : List (List Char)) :
    ∀ ls : List (List Char),
      (∀ x ∈ ls, runApplyPatches x = false ∧ hookApplyPatches x = false) →
      runSync true (ls ++ tail) = runSync true tail := by
  intro ls
  induction ls with
  | nil => intro _; rfl
  | cons x rest ih =>
    intro h
    obtain ⟨hx1, hx2⟩ := h x (List.mem_cons_self x rest)
    have hstep : syncLineStep true x = (true, none) := by
      simp [syncLineStep, hx1, hx2]
    have hrest := ih (fun y hy => h y (List.mem_cons_of_mem x hy))
    have expand : runSync true ((x :: rest) ++ tail)
        = ((runSync (syncLineStep true x).1 (rest ++ tail)).1,
            (syncLineStep true x).2.toList
              ++ (runSync (syncLineStep true x).1 (rest ++ tail)).2) := rfl
    rw [expand, hstep]
    simp [hrest]

/-- C7: a synchronization run of ten lines matching neither patch marker
followed by one line matching the patch-application marker emits exactly
one Dependencies phase event followed by exactly one Applying Patches
event; and any line matching the completion (elapsed-time hook) marker
but not the higher-priority application marker emits Finishing Up. -/
theorem sync_phases_once :
    (∀ (ls : List (List Char)) (l : List Char), ls.length = 10 →
        (∀ x ∈ ls, runApplyPatches x = false ∧ hookApplyPatches x = false) →
        runApplyPatches l = true →
        (runSync false (ls ++ [l])).2
          = [Report.mk "Dependencies" none, Report.mk "Applying Patches" none])
    ∧ (∀ (initialProgress : Bool) (l : List Char),
        hookApplyPatches l = true → runApplyPatches l = false →
        syncLineStep initialProgress l
          = (initialProgress, some (Report.mk "Finishing Up" none))) := by
  constructor
  · intro ls l hlen hun hm
    cases ls with
    | nil => simp at hlen
    | cons x rest =>
      obtain ⟨hx1, hx2⟩ := hun x (List.mem_cons_self x rest)
      have hstep : syncLineStep false x = (true, some (Report.mk "Dependencies" none)) := by
        simp [syncLineStep, hx1, hx2]
      have hq : runSync true (rest ++ [l]) = runSync true [l] :=
        runSync_quiet [l] rest (fun y hy => hun y (List.mem_cons_of_mem x hy))
      have hstepl : syncLineStep true l = (true, some (Report.mk "Applying Patches" none)) := by
        simp [syncLineStep, hm]
      have hl : runSync true [l] = (true, [Report.mk "Applying Patches" none]) := by
        have expand : runSync true [l]
            = ((runSync (syncLineStep true l).1 []).1,
                (syncLineStep true l).2.toList ++ (runSync (syncLineStep true l).1 []).2) := rfl
        rw [expand, hstepl]
        rfl
      have expand : runSync false ((x :: rest) ++ [l])
          = ((runSync (syncLineStep false x).1 (rest ++ [l])).1,
              (syncLineStep false x).2.toList
                ++ (runSync (syncLineStep false x).1 (rest ++ [l])).2) := rfl
      rw [expand, hstep]
      simp [hq, hl]
  · intro initialProgress l h1 h2
    simp [syncLineStep, h1, h2]

/-- C7 witness: ten concrete unrecognized lines followed by a concrete
patch-application line. -/
theorem sync_phases_once_witness :
    (runSync false (List.replicate 10 (strL "fetching deps")
        ++ [strL "running apply_all_patches.py"])).2
      = [Report.mk "Dependencies" none, Report.mk "Applying Patches" none] :=
  sync_phases_once.1 (List.replicate 10 (strL "fetching deps"))
    (strL "running apply_all_patches.py") (by decide) (by decide) (by decide)

/-- C8 counterexample: a caller-supplied NINJA_STATUS variable is not
preserved with its original value — the build environment override
replaces it. -/
theorem ninja_status_overridden :
    (fun k => if k = "NINJA_STATUS" then some "custom" else none : String → Option String)
        "NINJA_STATUS" = some "custom"
    ∧ buildEnv (fun k => if k = "NINJA_STATUS" then some "custom" else none) "NINJA_STATUS"
        = some "%p %f/%t "
    ∧ buildEnv (fun k => if k = "NINJA_STATUS" then some "custom" else none) "NINJA_STATUS"
        ≠ some "custom" := by decide

/-- C8 (amended): the build environment preserves every caller variable
other than NINJA_STATUS with its original value, sets NINJA_STATUS to
the status-format value (overriding any caller-supplied value), and
drops no caller variable. -/
theorem build_env_preserves_others :
    (∀ (env : String → Option String) (key v : String), key ≠ "NINJA_STATUS" →
        env key = some v → buildEnv env key = some v)
    ∧ (∀ env : String → Option String, buildEnv env "NINJA_STATUS" = some ninjaStatusValue)
    ∧ (∀ (env : String → Option String) (key : String),
        env key ≠ none → buildEnv env key ≠ none) := by
  refine ⟨?_, ?_, ?_⟩
  · intro env key v hk hv
    simp [buildEnv, hk, hv]
  · intro env
    simp [buildEnv]
  · intro env key h
    by_cases hk : key = "NINJA_STATUS"
    · simp [buildEnv, hk]
    · simpa [buildEnv, hk] using h

/-- C8 witness: a non-NINJA_STATUS caller variable is preserved. -/
theorem build_env_preserves_others_witness :
    buildEnv (fun k => if k = "PATH" then some "/usr/bin" else none) "PATH"
      = some "/usr/bin" :=
  build_env_preserves_others.1 (fun k => if k = "PATH" then some "/usr/bin" else none)
    "PATH" "/usr/bin" (by decide) (by decide)

theorem pathJoin2_inj (a b1 b2 : List Char) (h : pathJoin2 a b1 = pathJoin2 a b2) :
    b1 = b2 := by
  unfold pathJoin2 at h
  by_cases ha : a = []
  · rw [if_pos ha, if_pos ha] at h
    exact h
  · rw [if_neg ha, if_neg ha] at h
    by_cases hl : a.getLast? = some '/'
    · rw [if_pos hl, if_pos hl] at h
      exact List.append_cancel_left h
    · rw [if_neg hl, if_neg hl] at h
      have h2 := List.append_cancel_left h
      injection h2

/-- C9: generated endpoint names are the named-pipe path prefixed by
a backslash-dot-pipe head on the Windows platform, and the temp
directory joined with "socket-" plus the token elsewhere; for a fixed
platform and temp directory, distinct tokens (the per-call unique random
uuid) always yield distinct endpoint names. -/
theorem socket_name_forms_injective :
    (∀ tmpdir token : List Char, generateSocketName true tmpdir token = pipeNameBase ++ token)
    ∧ (∀ tmpdir token : List Char,
        generateSocketName false tmpdir token = pathJoin2 tmpdir (strL "socket-" ++ token))
    ∧ (∀ token : List Char,
        generateSocketName false (strL "/tmp") token = strL "/tmp/socket-" ++ token)
    ∧ (∀ (isWin32 : Bool) (tmpdir t1 t2 : List Char), t1 ≠ t2 →
        generateSocketName isWin32 tmpdir t1 ≠ generateSocketName isWin32 tmpdir t2) := by
  refine ⟨fun tmpdir token => rfl, fun tmpdir token => rfl, fun token => rfl, ?_⟩
  intro isWin32 tmpdir t1 t2 hne heq
  apply hne
  cases isWin32 with
  | true =>
    simp only [generateSocketName, if_pos] at heq
    exact List.append_cancel_left heq
  | false =>
    simp only [generateSocketName, if_neg] at heq
    have h2 := pathJoin2_inj tmpdir _ _ heq
    exact List.append_cancel_left h2

/-- C9 witness: two distinct tokens give distinct pipe names. -/
theorem socket_name_forms_injective_witness :
    generateSocketName true [] (strL "a") ≠ generateSocketName true [] (strL "b") :=
  socket_name_forms_injective.2.2.2 true [] (strL "a") (strL "b") (by decide)

/-- C10: with the baseline starting at zero, a build line parsing to a
value less than or equal to zero (such as a literal "0% 0/10" first
progress line, or a negative value) emits no event, and the first
Compiling (PercentAdvanced) event of any run from baseline zero carries
a strictly positive increment equal to its parsed value. -/
theorem baseline_zero_first_event_positive :
    (∀ (g : List Char → Bool) (line : List Char) (v : Int),
        regenMatch line = false → parseLinePercent line = some v → v ≤ 0 →
        buildLineStepG g 0 line = (0, none))
    ∧ (∀ g : List Char → Bool, buildLineStepG g 0 (strL "0% 0/10") = (0, none))
    ∧ (∀ g : List Char → Bool, buildLineStepG g 0 (strL "-12% 1/10") = (0, none))
    ∧ (∀ (g : List Char → Bool) (lines : List (List Char)) (i : Int) (rest : List Int),
        compIncs (runBuildG g 0 lines).2 = i :: rest → 0 < i) := by
  refine ⟨?_, fun g => rfl, fun g => rfl, ?_⟩
  · intro g line v hr hp hv
    have hnv : ¬((0 : Int) < v) := by omega
    simp [buildLineStepG, hr, hp, hnv]
  · intro g lines i rest h
    exact (runBuildG_spec g lines 0).2.2 i (by rw [h]; exact List.mem_cons_self i rest)

/-- C10 witness: the zero-value first line emits nothing. -/
theorem baseline_zero_first_event_positive_witness :
    buildLineStepG gomaTest000 0 (strL "0% 0/10") = (0, none) :=
  baseline_zero_first_event_positive.1 gomaTest000 (strL "0% 0/10") 0
    (by decide) (by decide) (by decide)
